import Mathlib

/-!
Verification of the MCAD utility conversion library (mcad.utils.v1-0.js).

Each function of the `mcad` namespace object is embedded as a function on
the real numbers: JavaScript numbers are modelled as reals, `Math.log`,
`Math.exp` and `Math.pow` as `Real.log`, `Real.exp` and `Real.rpow`.
The claimed round-trip identities, endpoint values and monotonicity
properties are stated and proved exactly over the reals.
-/

noncomputable section

namespace mcad

/-- Embeds `unsignedNormToParam(t, min, max)`: returns
min + ((max - min) * t). -/
def unsignedNormToParam (t min max : ℝ) : ℝ :=
  min + ((max - min) * t)

/-- Embeds `paramToUnsignedNorm(p, min, max)`: returns
(p - min) / (max - min). -/
def paramToUnsignedNorm (p min max : ℝ) : ℝ :=
  (p - min) / (max - min)

/-- Embeds `unsignedNtoSignedN(t)`: returns t * 2 - 1. -/
def unsignedNtoSignedN (t : ℝ) : ℝ :=
  t * 2 - 1

/-- Embeds `signedNtoUnsignedN(t)`: returns (t + 1) / 2. -/
def signedNtoUnsignedN (t : ℝ) : ℝ :=
  (t + 1) / 2

/-- Embeds `signedNormToParam(t, min, max)`: the composition
`this.unsignedNormToParam(this.signedNtoUnsignedN(t), min, max)`. -/
def signedNormToParam (t min max : ℝ) : ℝ :=
  unsignedNormToParam (signedNtoUnsignedN t) min max

/-- Embeds `paramToSignedNorm(p, min, max)`: the composition
`this.unsignedNtoSignedN(this.paramToUnsignedNorm(p, min, max))`. -/
def paramToSignedNorm (p min max : ℝ) : ℝ :=
  unsignedNtoSignedN (paramToUnsignedNorm p min max)

/-- Embeds `unsignedNormToLog(t, min, max)`: with
minv = log min, maxv = log max, scale = maxv - minv,
returns exp(scale * t + minv). -/
def unsignedNormToLog (t min max : ℝ) : ℝ :=
  let minv := Real.log min
  let maxv := Real.log max
  let scale := maxv - minv
  Real.exp (scale * t + minv)

/-- Embeds `logToUnsignedNorm(p, min, max)`: with
minv = log min, maxv = log max, scale = maxv - minv,
returns (log p - minv) / scale. -/
def logToUnsignedNorm (p min max : ℝ) : ℝ :=
  let minv := Real.log min
  let maxv := Real.log max
  let scale := maxv - minv
  (Real.log p - minv) / scale

/-- Embeds `midiNoteToHz(noteNumber)`: with f_0 = 440, MidA = 69,
n = noteNumber - MidA and a = 2^(1/12), returns f_0 * a^n. -/
def midiNoteToHz (noteNumber : ℝ) : ℝ :=
  let f_0 : ℝ := 440
  let MidA : ℝ := 69
  let n := noteNumber - MidA
  let a := (2 : ℝ) ^ ((1 : ℝ) / 12)
  f_0 * a ^ n

end mcad

open mcad

/-- C1: for every t and every min, max with max ≠ min,
paramToUnsignedNorm (unsignedNormToParam t min max) min max = t:
paramToUnsignedNorm inverts unsignedNormToParam. -/
theorem C1_linear_roundtrip (t min max : ℝ) (h : max ≠ min) :
    paramToUnsignedNorm (unsignedNormToParam t min max) min max = t := by
  unfold paramToUnsignedNorm unsignedNormToParam
  have hne : max - min ≠ 0 := sub_ne_zero.mpr h
  field_simp

/-- Witness for C1 at t = 0.5, min = 200, max = 400. -/
theorem C1_linear_roundtrip_witness :
    (400 : ℝ) ≠ 200 ∧
      paramToUnsignedNorm (unsignedNormToParam 0.5 200 400) 200 400 = 0.5 :=
  ⟨by norm_num, C1_linear_roundtrip 0.5 200 400 (by norm_num)⟩

/-- C4: unsignedNormToParam t min max = min + (max - min) * t for all
inputs; hence t = 0 gives min, t = 1 gives max, and
unsignedNormToParam 0.5 200 400 = 300; the same formula extrapolates
linearly outside of the unit interval. -/
theorem C4_unsignedNormToParam_formula :
    (∀ t min max : ℝ, unsignedNormToParam t min max = min + (max - min) * t) ∧
    (∀ min max : ℝ, unsignedNormToParam 0 min max = min) ∧
    (∀ min max : ℝ, unsignedNormToParam 1 min max = max) ∧
    unsignedNormToParam 0.5 200 400 = 300 := by
  refine ⟨fun t min max => rfl, ?_, ?_, ?_⟩ <;>
    · unfold unsignedNormToParam
      norm_num

/-- C5: unsignedNtoSignedN and signedNtoUnsignedN are mutually inverse
on all reals, and map the endpoints as 0 to -1, 0.5 to 0, 1 to 1
and -1 to 0, 0 to 0.5, 1 to 1 respectively. -/
theorem C5_sign_roundtrip :
    (∀ t : ℝ, signedNtoUnsignedN (unsignedNtoSignedN t) = t) ∧
    (∀ t : ℝ, unsignedNtoSignedN (signedNtoUnsignedN t) = t) ∧
    unsignedNtoSignedN 0 = -1 ∧ unsignedNtoSignedN 0.5 = 0 ∧
    unsignedNtoSignedN 1 = 1 ∧ signedNtoUnsignedN (-1) = 0 ∧
    signedNtoUnsignedN 0 = 0.5 ∧ signedNtoUnsignedN 1 = 1 := by
  unfold signedNtoUnsignedN unsignedNtoSignedN
  norm_num

/-- C9: the linear pair is an inverse in the opposite direction too:
for every p and max ≠ min,
unsignedNormToParam (paramToUnsignedNorm p min max) min max = p. -/
theorem C9_linear_roundtrip_reverse (p min max : ℝ) (h : max ≠ min) :
    unsignedNormToParam (paramToUnsignedNorm p min max) min max = p := by
  unfold paramToUnsignedNorm unsignedNormToParam
  have hne : max - min ≠ 0 := sub_ne_zero.mpr h
  field_simp

/-- Witness for C9 at p = 300, min = 200, max = 400. -/
theorem C9_linear_roundtrip_reverse_witness :
    (400 : ℝ) ≠ 200 ∧
      unsignedNormToParam (paramToUnsignedNorm 300 200 400) 200 400 = 300 :=
  ⟨by norm_num, C9_linear_roundtrip_reverse 300 200 400 (by norm_num)⟩

/-- C2: for every t in the unit interval and 0 < min < max,
logToUnsignedNorm (unsignedNormToLog t min max) min max = t:
the logarithmic mapping and its inverse round-trip. -/
theorem C2_log_roundtrip (t min max : ℝ) (_ht0 : 0 ≤ t) (_ht1 : t ≤ 1)
    (hmin : 0 < min) (hlt : min < max) :
    logToUnsignedNorm (unsignedNormToLog t min max) min max = t := by
  unfold logToUnsignedNorm unsignedNormToLog
  simp only [Real.log_exp]
  have hlog : Real.log min < Real.log max := Real.log_lt_log hmin hlt
  have hscale : Real.log max - Real.log min ≠ 0 := by linarith
  field_simp

/-- Witness for C2 at t = 0.5, min = 2, max = 8. -/
theorem C2_log_roundtrip_witness :
    (0 : ℝ) ≤ 0.5 ∧ (0.5 : ℝ) ≤ 1 ∧ (0 : ℝ) < 2 ∧ (2 : ℝ) < 8 ∧
      logToUnsignedNorm (unsignedNormToLog 0.5 2 8) 2 8 = 0.5 :=
  ⟨by norm_num, by norm_num, by norm_num, by norm_num,
    C2_log_roundtrip 0.5 2 8 (by norm_num) (by norm_num) (by norm_num)
      (by norm_num)⟩

/-- C3: midiNoteToHz n = 440 * 2 ^ ((n - 69) / 12) for every real n;
in particular note 69 maps to 440, note 81 maps to 880, and adding
12 semitones doubles the frequency. -/
theorem C3_midiNoteToHz_formula :
    (∀ n : ℝ, midiNoteToHz n = 440 * (2 : ℝ) ^ ((n - 69) / 12)) ∧
    midiNoteToHz 69 = 440 ∧ midiNoteToHz 81 = 880 ∧
    (∀ n : ℝ, midiNoteToHz (n + 12) = 2 * midiNoteToHz n) := by
  have hform : ∀ n : ℝ, midiNoteToHz n = 440 * (2 : ℝ) ^ ((n - 69) / 12) := by
    intro n
    unfold midiNoteToHz
    simp only
    have he : (1 : ℝ) / 12 * (n - 69) = (n - 69) / 12 := by ring
    rw [← Real.rpow_mul (by norm_num : (0 : ℝ) ≤ 2), he]
  refine ⟨hform, ?_, ?_, ?_⟩
  · rw [hform]
    norm_num
  · rw [hform]
    norm_num [Real.rpow_one]
  · intro n
    rw [hform, hform n]
    have h1 : (n + 12 - 69) / 12 = (n - 69) / 12 + 1 := by ring
    rw [h1, Real.rpow_add_one (by norm_num : (2 : ℝ) ≠ 0)]
    ring

/-- C6: for every t in the signed unit interval and min < max,
paramToSignedNorm (signedNormToParam t min max) min max = t, and
signedNormToParam maps -1 to min, 0 to the midpoint (min + max) / 2,
and 1 to max. -/
theorem C6_signed_roundtrip (t min max : ℝ) (_ht0 : -1 ≤ t) (_ht1 : t ≤ 1)
    (h : min < max) :
    paramToSignedNorm (signedNormToParam t min max) min max = t ∧
    signedNormToParam (-1) min max = min ∧
    signedNormToParam 0 min max = (min + max) / 2 ∧
    signedNormToParam 1 min max = max := by
  have hne : max - min ≠ 0 := sub_ne_zero.mpr (ne_of_gt h)
  refine ⟨?_, ?_, ?_, ?_⟩ <;>
    · simp only [paramToSignedNorm, signedNormToParam, unsignedNtoSignedN,
        signedNtoUnsignedN, paramToUnsignedNorm, unsignedNormToParam]
      field_simp
      try ring

/-- Witness for C6 at t = 0, min = 200, max = 400. -/
theorem C6_signed_roundtrip_witness :
    (-1 : ℝ) ≤ 0 ∧ (0 : ℝ) ≤ 1 ∧ (200 : ℝ) < 400 ∧
      (paramToSignedNorm (signedNormToParam 0 200 400) 200 400 = 0 ∧
        signedNormToParam (-1) 200 400 = 200 ∧
        signedNormToParam 0 200 400 = (200 + 400) / 2 ∧
        signedNormToParam 1 200 400 = 400) :=
  ⟨by norm_num, by norm_num, by norm_num,
    C6_signed_roundtrip 0 200 400 (by norm_num) (by norm_num) (by norm_num)⟩

/-- C7: for 0 < min < max the map sending t to
unsignedNormToLog t min max is strictly increasing, takes the value
min at t = 0 and the value max at t = 1. -/
theorem C7_log_mono_endpoints (min max : ℝ) (hmin : 0 < min)
    (hlt : min < max) :
    (∀ t1 t2 : ℝ, t1 < t2 →
      unsignedNormToLog t1 min max < unsignedNormToLog t2 min max) ∧
    unsignedNormToLog 0 min max = min ∧ unsignedNormToLog 1 min max = max := by
  have hmax : 0 < max := lt_trans hmin hlt
  have hlog : Real.log min < Real.log max := Real.log_lt_log hmin hlt
  refine ⟨?_, ?_, ?_⟩
  · intro t1 t2 ht
    unfold unsignedNormToLog
    simp only
    apply Real.exp_lt_exp.mpr
    have hmul : (Real.log max - Real.log min) * t1 <
        (Real.log max - Real.log min) * t2 :=
      mul_lt_mul_of_pos_left ht (by linarith)
    linarith
  · unfold unsignedNormToLog
    simp only
    rw [mul_zero, zero_add, Real.exp_log hmin]
  · unfold unsignedNormToLog
    simp only
    rw [mul_one, sub_add_cancel, Real.exp_log hmax]

/-- Witness for C7 at min = 20, max = 20000, also establishing the
concrete endpoint values 20 and 20000 named by the claim. -/
theorem C7_log_mono_endpoints_witness :
    (0 : ℝ) < 20 ∧ (20 : ℝ) < 20000 ∧
      ((∀ t1 t2 : ℝ, t1 < t2 →
          unsignedNormToLog t1 20 20000 < unsignedNormToLog t2 20 20000) ∧
        unsignedNormToLog 0 20 20000 = 20 ∧
        unsignedNormToLog 1 20 20000 = 20000) :=
  ⟨by norm_num, by norm_num,
    C7_log_mono_endpoints 20 20000 (by norm_num) (by norm_num)⟩

/-- C10: in the degenerate case min = max = m with m positive,
unsignedNormToLog t m m = m for every t, a constant; whereas
logToUnsignedNorm p m m has internal scale log m - log m = 0, so it
reduces to a division of log p - log m by zero (in IEEE arithmetic a
NaN or infinite result). -/
theorem C10_degenerate_equal_bounds (m : ℝ) (hm : 0 < m) :
    (∀ t : ℝ, unsignedNormToLog t m m = m) ∧
    (∀ p : ℝ, logToUnsignedNorm p m m = (Real.log p - Real.log m) / 0) := by
  constructor
  · intro t
    unfold unsignedNormToLog
    simp only [sub_self, zero_mul, zero_add, Real.exp_log hm]
  · intro p
    unfold logToUnsignedNorm
    simp only [sub_self]

/-- Witness for C10 at m = 2. -/
theorem C10_degenerate_equal_bounds_witness :
    (0 : ℝ) < 2 ∧
      ((∀ t : ℝ, unsignedNormToLog t 2 2 = 2) ∧
        (∀ p : ℝ, logToUnsignedNorm p 2 2 = (Real.log p - Real.log 2) / 0)) :=
  ⟨by norm_num, C10_degenerate_equal_bounds 2 (by norm_num)⟩
